import Mathlib

/-!
Verification of the Rev3rse party game (src/components/reverse-audio-game.tsx).

The development is a shallow embedding of the component's audio core and of its
game-phase state machine:

* `AudioBuffer` models the Web Audio `AudioBuffer` value that the component
  decodes from a recording: a channel count, a frame length, a sample rate and
  one sample array per channel.  The sample values (32-bit floats in the
  browser) are only ever copied by the code under verification, never computed
  with, so the embedding is parametric in the sample type `α`; the state
  machine instantiates it with `Float`.
* `reverseAudioBuffer` is the line-by-line translation of the component's
  `reverseAudioBuffer` callback: a fresh buffer with identical dimensions whose
  channel `i`-th entry is the input's `(length - 1 - i)`-th entry.
* `GameState` collects the component's `useState` hooks and the relevant refs;
  each event handler of the component (`handleVote`, `goBack`, `nextRound`,
  `resetGame`, `handleSetupSubmit`, `stopRecording`, `playReversedAudio`, ...)
  is translated as a state-to-state function, and `step` dispatches user
  commands and asynchronous completions to those handlers, guarded exactly by
  the conditions under which the component's UI renders/enables the
  corresponding control.  Asynchronous browser operations (`getUserMedia`,
  `decodeAudioData`) are modelled as atomic steps whose success or failure is
  the event's parameter, matching the request/completion view of the design
  document ("the caller issues a request and later receives exactly one
  completion").
-/

namespace Rev3rse

/-- Decoded multi-channel waveform, as produced by `decodeAudioData` and by
`audioContext.createBuffer`: channel count, frame count, sample rate and the
per-channel sample arrays. -/
structure AudioBuffer (α : Type) where
  numberOfChannels : Nat
  length : Nat
  sampleRate : Nat
  channelData : List (List α)
deriving DecidableEq

/-- Well-formedness of a decoded buffer, guaranteed by the Web Audio API:
there are exactly `numberOfChannels` channel arrays and every channel holds
exactly `length` samples. -/
def AudioBuffer.WF {α : Type} (b : AudioBuffer α) : Prop :=
  b.channelData.length = b.numberOfChannels ∧ ∀ ch ∈ b.channelData, ch.length = b.length

instance {α : Type} [DecidableEq α] (b : AudioBuffer α) : Decidable b.WF := by
  unfold AudioBuffer.WF; infer_instance

/-- Translation of the component's `reverseAudioBuffer` callback: it creates a
buffer with the same channel count, length and sample rate and fills every
channel by the loop `outputData[i] = inputData[buffer.length - 1 - i]` for
`0 ≤ i < buffer.length`.  (Reading the input array is modelled with `List.getD`;
under `AudioBuffer.WF` every read is in range.)  The function builds a new
buffer and never writes to its argument, so the translation of the operation
is a pure function. -/
def reverseAudioBuffer {α : Type} [Inhabited α] (buffer : AudioBuffer α) : AudioBuffer α :=
  { numberOfChannels := buffer.numberOfChannels
    length := buffer.length
    sampleRate := buffer.sampleRate
    channelData := buffer.channelData.map (fun inputData =>
      (List.range buffer.length).map (fun i => inputData.getD (buffer.length - 1 - i) default)) }

theorem revLoop_eq_reverse {α : Type} [Inhabited α] (ch : List α) :
    (List.range ch.length).map (fun i => ch.getD (ch.length - 1 - i) default) = ch.reverse := by
  apply List.ext_getElem
  · simp
  · intro i h1 h2
    simp only [List.getElem_map, List.getElem_range, List.getElem_reverse]
    rw [List.getD_eq_getElem]

theorem reverse_channelData {α : Type} [Inhabited α] (b : AudioBuffer α) (hwf : b.WF) :
    (reverseAudioBuffer b).channelData = b.channelData.map List.reverse := by
  unfold reverseAudioBuffer
  simp only
  apply List.map_congr_left
  intro ch hch
  rw [← hwf.2 ch hch]
  exact revLoop_eq_reverse ch

theorem reverse_WF {α : Type} [Inhabited α] (b : AudioBuffer α) (hwf : b.WF) :
    (reverseAudioBuffer b).WF := by
  constructor
  · simp [reverseAudioBuffer, hwf.1]
  · intro ch hch
    rw [reverse_channelData b hwf] at hch
    simp only [List.mem_map] at hch
    obtain ⟨ch0, hch0, rfl⟩ := hch
    simp [reverseAudioBuffer, hwf.2 ch0 hch0]

theorem reverse_eq_map_reverse {α : Type} [Inhabited α] (b : AudioBuffer α) (hwf : b.WF) :
    reverseAudioBuffer b =
      { b with channelData := b.channelData.map List.reverse } := by
  have h := reverse_channelData b hwf
  cases b
  simp only [reverseAudioBuffer, AudioBuffer.mk.injEq, true_and]
  simpa [reverseAudioBuffer] using h

/-- Claim C1: for every `AudioBuffer` x, `reverse(x)` returns a new sample in
which, for every channel independently, the output value at index `i` equals
the input's value at index `(length - 1 - i)`, and the channel count, length,
and sample rate of the output equal those of `x` exactly.  (The operation is a
pure function of its argument by construction of the embedding.) -/
theorem claim_C1_reverse_correct {α : Type} [Inhabited α] (b : AudioBuffer α) (hwf : b.WF) :
    (reverseAudioBuffer b).numberOfChannels = b.numberOfChannels ∧
    (reverseAudioBuffer b).length = b.length ∧
    (reverseAudioBuffer b).sampleRate = b.sampleRate ∧
    (reverseAudioBuffer b).channelData.length = b.channelData.length ∧
    (∀ ch ∈ (reverseAudioBuffer b).channelData, ch.length = b.length) ∧
    (∀ c, c < b.channelData.length → ∀ i, i < b.length →
      ((reverseAudioBuffer b).channelData.getD c []).getD i default
        = (b.channelData.getD c []).getD (b.length - 1 - i) default) := by
  have hrev := reverse_WF b hwf
  refine ⟨rfl, rfl, rfl, ?_, ?_, ?_⟩
  · simp [reverseAudioBuffer]
  · intro ch hch
    exact hrev.2 ch hch
  · intro c hc i hi
    have hc' : c < (reverseAudioBuffer b).channelData.length := by
      simpa [reverseAudioBuffer] using hc
    rw [List.getD_eq_getElem _ _ hc', List.getD_eq_getElem _ _ hc]
    have key : (reverseAudioBuffer b).channelData[c] = b.channelData[c].reverse := by
      rw [List.getElem_of_eq (reverse_channelData b hwf) hc', List.getElem_map]
    rw [key]
    have hlen : b.channelData[c].length = b.length :=
      hwf.2 _ (List.getElem_mem hc)
    have hi1 : i < b.channelData[c].reverse.length := by simpa [hlen] using hi
    have hi2 : b.length - 1 - i < b.channelData[c].length := by omega
    rw [List.getD_eq_getElem _ _ hi1, List.getD_eq_getElem _ _ hi2,
      List.getElem_reverse]
    congr 1
    omega

/-- Concrete instance of claim C1 on the sample buffer `[[5, 6, 7]]`. -/
theorem claim_C1_witness :
    (⟨1, 3, 44100, [[5, 6, 7]]⟩ : AudioBuffer Int).WF ∧
    ((reverseAudioBuffer (⟨1, 3, 44100, [[5, 6, 7]]⟩ : AudioBuffer Int)).numberOfChannels = 1 ∧
      ∀ c, c < 1 → ∀ i, i < 3 →
        ((reverseAudioBuffer (⟨1, 3, 44100, [[5, 6, 7]]⟩ : AudioBuffer Int)).channelData.getD c []).getD i default
          = (((⟨1, 3, 44100, [[5, 6, 7]]⟩ : AudioBuffer Int)).channelData.getD c []).getD (3 - 1 - i) default) := by
  refine ⟨by decide, ?_, ?_⟩
  · exact (claim_C1_reverse_correct (⟨1, 3, 44100, [[5, 6, 7]]⟩ : AudioBuffer Int) (by decide)).1
  · exact (claim_C1_reverse_correct (⟨1, 3, 44100, [[5, 6, 7]]⟩ : AudioBuffer Int) (by decide)).2.2.2.2.2

/-- Claim C2: reversal is an involution: for every sample `x`,
`reverse(reverse(x))` equals `x` sample-for-sample on every channel (indeed as
a whole `AudioBuffer` value). -/
theorem claim_C2_reverse_involution {α : Type} [Inhabited α] (b : AudioBuffer α) (hwf : b.WF) :
    reverseAudioBuffer (reverseAudioBuffer b) = b := by
  rw [reverse_eq_map_reverse (reverseAudioBuffer b) (reverse_WF b hwf),
    reverse_eq_map_reverse b hwf]
  cases b
  simp [List.map_map, Function.comp]

/-- Concrete instance of claim C2 on the sample buffer `[[5, 6], [7, 8]]`. -/
theorem claim_C2_witness :
    (⟨2, 2, 48000, [[5, 6], [7, 8]]⟩ : AudioBuffer Int).WF ∧
    reverseAudioBuffer (reverseAudioBuffer (⟨2, 2, 48000, [[5, 6], [7, 8]]⟩ : AudioBuffer Int))
      = (⟨2, 2, 48000, [[5, 6], [7, 8]]⟩ : AudioBuffer Int) :=
  ⟨by decide, claim_C2_reverse_involution (⟨2, 2, 48000, [[5, 6], [7, 8]]⟩ : AudioBuffer Int) (by decide)⟩

/-! ## Game phase state machine

Translation of the component's state and event handlers.  Each `useState` hook
becomes a field of `GameState`; `mediaRecorderRef` (together with the
`forImitation` flag captured by its `onstop` closure) is modelled by the
`activeRecorder` field. -/

/-- The component's `GamePhase` union type. -/
inductive GamePhase where
  | setup
  | start
  | requestingPermission
  | recordingOriginal
  | originalRecorded
  | playingReversed
  | recordingImitation
  | imitationRecorded
  | voting
  | reveal
  | gameOver
deriving DecidableEq

/-- The component's `MicPermissionState` union type. -/
inductive MicPermissionState where
  | prompt
  | granted
  | denied
  | unsupported
deriving DecidableEq

/-- The component's `PlayerState` interface. -/
structure PlayerState where
  name : String
  lives : Int
deriving DecidableEq

def MAX_LIVES : Int := 3

def MAX_REVERSE_PLAYS : Nat := 2

/-- The component's state: one field per `useState` hook that the verified
behaviour depends on, plus `activeRecorder`, which models `mediaRecorderRef`
together with the `forImitation` argument captured by the recorder's `onstop`
closure (`some forImitation` when a `MediaRecorder` has been created). -/
structure GameState where
  phase : GamePhase
  isRecording : Bool
  isPlaying : Bool
  originalAudio : Option (AudioBuffer Float)
  reversedAudio : Option (AudioBuffer Float)
  imitationAudio : Option (AudioBuffer Float)
  reversedImitationAudio : Option (AudioBuffer Float)
  micPermission : MicPermissionState
  permissionError : Option String
  player1 : PlayerState
  player2 : PlayerState
  currentRecorder : Nat
  voteResult : Option Bool
  roundCount : Nat
  reversedPlayCount : Nat
  activeRecorder : Option Bool

/-- The initial values of the component's `useState` hooks. -/
def initialState : GameState :=
  { phase := .setup
    isRecording := false
    isPlaying := false
    originalAudio := none
    reversedAudio := none
    imitationAudio := none
    reversedImitationAudio := none
    micPermission := .prompt
    permissionError := none
    player1 := { name := "", lives := MAX_LIVES }
    player2 := { name := "", lives := MAX_LIVES }
    currentRecorder := 1
    voteResult := none
    roundCount := 1
    reversedPlayCount := 0
    activeRecorder := none }

/-- The player currently imitating: `currentRecorder === 1 ? player2 : player1`,
exactly as `handleVote` and `goBack` select it. -/
def imitatorPlayer (s : GameState) : PlayerState :=
  if s.currentRecorder = 1 then s.player2 else s.player1

/-- The player currently recording the original phrase. -/
def recorderPlayer (s : GameState) : PlayerState :=
  if s.currentRecorder = 1 then s.player1 else s.player2

/-- Store an updated player record into the imitator's slot, exactly as the
`setImitatorPlayer` alias chosen by `handleVote` and `goBack`. -/
def setImitatorPlayer (s : GameState) (p : PlayerState) : GameState :=
  if s.currentRecorder = 1 then { s with player2 := p } else { s with player1 := p }

/-- Truthiness of `name.trim()` in the setup-form guard: the trimmed string is
nonempty exactly when the name contains a non-whitespace character.  (Stated
over `String.data` so that the predicate evaluates inside the kernel.) -/
def nameEntered (n : String) : Bool :=
  n.data.any (fun c => !c.isWhitespace)

/-- `handleSetupSubmit`: if both names are entered (trim-truthy), move to
`start`; otherwise do nothing.  The handler has no other effect. -/
def handleSetupSubmit (s : GameState) : GameState :=
  if nameEntered s.player1.name && nameEntered s.player2.name then
    { s with phase := .start }
  else s

/-- Successful completion of `startRecording(forImitation)`: `getUserMedia`
resolved, so the handler stores the stream/recorder, clears the error, marks
the permission granted, sets `isRecording` and enters the recording phase. -/
def startRecordingOk (forImitation : Bool) (s : GameState) : GameState :=
  { s with
    permissionError := none
    micPermission := .granted
    activeRecorder := some forImitation
    isRecording := true
    phase := if forImitation then .recordingImitation else .recordingOriginal }

/-- Outcome of a `getUserMedia` request, the parameter of the atomic step that
models the `await`: on failure the component classifies the error into a
human-readable message and possibly a new permission state (`denied` for
`NotAllowedError`, `unsupported` for a missing device in
`requestMicrophonePermission`). -/
inductive MicResult where
  | ok
  | failure (newPerm : Option MicPermissionState) (msg : String)
deriving DecidableEq

/-- Failure branch of `startRecording` / `requestMicrophonePermission`:
surface the classified message and apply the permission update; the phase is
not changed here. -/
def micFailure (newPerm : Option MicPermissionState) (msg : String) (s : GameState) : GameState :=
  { s with
    permissionError := some msg
    micPermission := newPerm.getD s.micPermission }

/-- `handleStartGame` with the outcome of its microphone request: with
permission already granted it calls `startRecording(false)` directly; otherwise
it passes through `requesting-permission`, and a denied request puts the phase
back to `start`.  The intermediate `requesting-permission` rendering during the
`await` is collapsed into the atomic step. -/
def handleStartGame (r : MicResult) (s : GameState) : GameState :=
  match r with
  | .ok => startRecordingOk false s
  | .failure newPerm msg =>
    if s.micPermission = .granted then micFailure newPerm msg s
    else { micFailure newPerm msg s with phase := .start }

/-- `handleStartImitation` with the outcome of its microphone request: like
`handleStartGame` but for `startRecording(true)`, and a failed request leaves
the phase unchanged (`playing-reversed`). -/
def handleStartImitation (r : MicResult) (s : GameState) : GameState :=
  match r with
  | .ok => startRecordingOk true s
  | .failure newPerm msg => micFailure newPerm msg s

/-- `stopRecording` together with the recorder's `onstop` completion, taken as
one atomic step whose parameter is the result of `decodeAudioData`
(`some buffer` on success, `none` on a decode error): if nothing is recording
the press is a no-op; otherwise `isRecording` is cleared and the `onstop`
closure fills the slot named by its captured `forImitation` flag and advances
the phase, or on decode failure surfaces the error message and falls back to
the phase preceding the capture. -/
def stopRecordingDecoded (result : Option (AudioBuffer Float)) (s : GameState) : GameState :=
  match s.activeRecorder with
  | none => s
  | some forImitation =>
    if s.isRecording then
      match result with
      | some audioBuffer =>
        if forImitation then
          { s with
            isRecording := false
            imitationAudio := some audioBuffer
            reversedImitationAudio := some (reverseAudioBuffer audioBuffer)
            phase := .imitationRecorded }
        else
          { s with
            isRecording := false
            originalAudio := some audioBuffer
            reversedAudio := some (reverseAudioBuffer audioBuffer)
            phase := .originalRecorded }
      | none =>
        { s with
          isRecording := false
          permissionError := some "Failed to process the recording. Please try again."
          phase := if forImitation then .playingReversed else .start }
    else s

/-- `playReversedAudio`: if the reversed original exists and the replay cap is
not reached, enter `playing-reversed`, start playback and increment the
counter; otherwise do nothing. -/
def playReversedAudio (s : GameState) : GameState :=
  if s.reversedAudio.isSome && decide (s.reversedPlayCount < MAX_REVERSE_PLAYS) then
    { s with
      phase := .playingReversed
      isPlaying := true
      reversedPlayCount := s.reversedPlayCount + 1 }
  else s

/-- `playImitationReversed`: play the reversed imitation if it exists. -/
def playImitationReversed (s : GameState) : GameState :=
  if s.reversedImitationAudio.isSome then { s with isPlaying := true } else s

/-- `playOriginal`: play the original recording if it exists. -/
def playOriginal (s : GameState) : GameState :=
  if s.originalAudio.isSome then { s with isPlaying := true } else s

/-- `handleVote`: record the vote; on "not close" deduct one life from the
imitating player and go to `game-over` if the deducted value is `≤ 0`,
otherwise to `reveal`; on "close enough" just go to `reveal`. -/
def handleVote (wasClose : Bool) (s : GameState) : GameState :=
  if !wasClose then
    if (imitatorPlayer s).lives - 1 ≤ 0 then
      setImitatorPlayer { s with voteResult := some wasClose, phase := .gameOver }
        { imitatorPlayer s with lives := (imitatorPlayer s).lives - 1 }
    else
      setImitatorPlayer { s with voteResult := some wasClose, phase := .reveal }
        { imitatorPlayer s with lives := (imitatorPlayer s).lives - 1 }
  else { s with voteResult := some wasClose, phase := .reveal }

/-- `nextRound`: clear the round context, swap roles, bump the round counter,
reset the replay counter and return to `start`. -/
def nextRound (s : GameState) : GameState :=
  { s with
    originalAudio := none
    reversedAudio := none
    imitationAudio := none
    reversedImitationAudio := none
    isRecording := false
    isPlaying := false
    permissionError := none
    voteResult := none
    currentRecorder := if s.currentRecorder = 1 then 2 else 1
    roundCount := s.roundCount + 1
    reversedPlayCount := 0
    phase := .start }

/-- `resetGame`: back to `setup` with both players cleared to 3 lives, round 1,
player 1 recording first and an empty round context. -/
def resetGame (s : GameState) : GameState :=
  { s with
    phase := .setup
    originalAudio := none
    reversedAudio := none
    imitationAudio := none
    reversedImitationAudio := none
    isRecording := false
    isPlaying := false
    permissionError := none
    voteResult := none
    player1 := { name := "", lives := MAX_LIVES }
    player2 := { name := "", lives := MAX_LIVES }
    currentRecorder := 1
    roundCount := 1
    reversedPlayCount := 0 }

/-- The first half of `goBack`: stop any ongoing recording (the recorder's
`stop()` is issued only when `isRecording` and a recorder exists), stop
playback and clear the error message. -/
def goBackPrelude (s : GameState) : GameState :=
  { s with
    isRecording := if s.isRecording && s.activeRecorder.isSome then false else s.isRecording
    isPlaying := false
    permissionError := none }

/-- The `switch (phase)` navigation at the end of `goBack`. -/
def goBackNav (s : GameState) : GameState :=
  match s.phase with
  | .start => { s with phase := .setup }
  | .requestingPermission => { s with phase := .start }
  | .recordingOriginal => { s with phase := .start }
  | .originalRecorded =>
    { s with originalAudio := none, reversedAudio := none, phase := .start }
  | .playingReversed =>
    { s with phase := .originalRecorded, reversedPlayCount := 0 }
  | .recordingImitation => { s with phase := .playingReversed }
  | .imitationRecorded =>
    { s with imitationAudio := none, reversedImitationAudio := none, phase := .playingReversed }
  | .voting => { s with phase := .imitationRecorded }
  | .reveal =>
    if s.voteResult = some false then
      { setImitatorPlayer s { imitatorPlayer s with lives := (imitatorPlayer s).lives + 1 } with
        voteResult := none, phase := .voting }
    else { s with voteResult := none, phase := .voting }
  | _ => s

/-- `goBack`: stop any ongoing recording or playback, clear the error, then
navigate to the previous phase; backing out of `reveal` after a "not close"
vote restores the deducted life. -/
def goBack (s : GameState) : GameState :=
  goBackNav (goBackPrelude s)

/-- Whether the `Back` button is rendered and enabled in the current state:
it exists in every phase except `setup`, is disabled during an active
recording in the recording phases and disabled during playback in
`playing-reversed`, `voting` and `reveal`. -/
def backEnabled (s : GameState) : Bool :=
  match s.phase with
  | .setup => false
  | .recordingOriginal => !s.isRecording
  | .recordingImitation => !s.isRecording
  | .playingReversed => !s.isPlaying
  | .voting => !s.isPlaying
  | .reveal => !s.isPlaying
  | _ => true

/-- The discrete commands the UI layer can issue, plus the asynchronous
completions delivered by the browser (`onended` on the playback voice, the
permission-change notification).  `getUserMedia` and `decodeAudioData`
outcomes are parameters of the command that awaits them. -/
inductive Op where
  | setName1 (v : String)
  | setName2 (v : String)
  | setupSubmit
  | startGamePressed (r : MicResult)
  | stopRecordingPressed (result : Option (AudioBuffer Float))
  | playReversedPressed
  | startImitationPressed (r : MicResult)
  | goToVotingPressed
  | playOriginalPressed
  | playImitationReversedPressed
  | votePressed (wasClose : Bool)
  | nextRoundPressed
  | backPressed
  | resetPressed
  | playbackEnded
  | permissionChanged (p : MicPermissionState)

/-- One step of the component: the handler for the given command, guarded by
the conditions under which the component renders (and enables) the
corresponding control — a command whose control is not on screen or is
disabled leaves the state unchanged.  The guards are read off the JSX of each
phase (`disabled={isPlaying}`, `disabled={isRecording}`,
`disabled={isPlaying || reversedPlayCount >= MAX_REVERSE_PLAYS}`, the
`micPermission === "unsupported"` branch that hides the start button, and the
phase that each block of controls belongs to). -/
def step (op : Op) (s : GameState) : GameState :=
  match op with
  | .setName1 v =>
    if s.phase = .setup then { s with player1 := { s.player1 with name := v } } else s
  | .setName2 v =>
    if s.phase = .setup then { s with player2 := { s.player2 with name := v } } else s
  | .setupSubmit =>
    if s.phase = .setup then handleSetupSubmit s else s
  | .startGamePressed r =>
    if s.phase = .start && !(s.micPermission = .unsupported) then handleStartGame r s else s
  | .stopRecordingPressed result =>
    if s.phase = .recordingOriginal || s.phase = .recordingImitation then
      stopRecordingDecoded result s
    else s
  | .playReversedPressed =>
    if (s.phase = .originalRecorded && !s.isPlaying)
        || (s.phase = .playingReversed && !s.isPlaying
            && decide (s.reversedPlayCount < MAX_REVERSE_PLAYS)) then
      playReversedAudio s
    else s
  | .startImitationPressed r =>
    if s.phase = .playingReversed && !s.isPlaying then handleStartImitation r s else s
  | .goToVotingPressed =>
    if s.phase = .imitationRecorded then { s with phase := .voting } else s
  | .playOriginalPressed =>
    if (s.phase = .voting || s.phase = .reveal) && !s.isPlaying then playOriginal s else s
  | .playImitationReversedPressed =>
    if (s.phase = .voting || s.phase = .reveal) && !s.isPlaying then
      playImitationReversed s
    else s
  | .votePressed wasClose =>
    if s.phase = .voting && !s.isPlaying then handleVote wasClose s else s
  | .nextRoundPressed =>
    if s.phase = .reveal then nextRound s else s
  | .backPressed =>
    if backEnabled s then goBack s else s
  | .resetPressed =>
    if s.phase = .gameOver then resetGame s else s
  | .playbackEnded =>
    if s.isPlaying then { s with isPlaying := false } else s
  | .permissionChanged p =>
    { s with
      micPermission := p
      permissionError := if p = .granted then none else s.permissionError }

/-- Run a sequence of commands from the initial state. -/
def run (ops : List Op) : GameState :=
  ops.foldl (fun s op => step op s) initialState

/-- A state is reachable when some command sequence produces it. -/
def Reachable (s : GameState) : Prop :=
  ∃ ops : List Op, run ops = s

/-! ## The inductive invariant

`Inv` is the conjunction of facts preserved by every guarded step; the claimed
properties C3–C10 are consequences.  `alive` holds because the only transition
that brings a life to 0 also moves to `game-over`, and `game-over` can only be
left through `resetGame`; `reveal_deducted` records that a "not close" vote
deducts a life before entering `reveal`, so the life restored by `goBack`
cannot push a counter above 3. -/

structure Inv (s : GameState) : Prop where
  p1_lo : 0 ≤ s.player1.lives
  p1_hi : s.player1.lives ≤ 3
  p2_lo : 0 ≤ s.player2.lives
  p2_hi : s.player2.lives ≤ 3
  alive : s.phase ≠ .gameOver → 1 ≤ s.player1.lives ∧ 1 ≤ s.player2.lives
  reveal_deducted : s.phase = .reveal → s.voteResult = some false →
    (imitatorPlayer s).lives ≤ 2
  rec_phase : s.isRecording = true →
    (s.phase = .recordingOriginal ∧ s.activeRecorder = some false) ∨
      (s.phase = .recordingImitation ∧ s.activeRecorder = some true)
  play_phase : s.isPlaying = true →
    s.phase = .playingReversed ∨ s.phase = .voting ∨ s.phase = .reveal
  replay_le : s.reversedPlayCount ≤ 2

theorem inv_initialState : Inv initialState := by
  refine ⟨?_, ?_, ?_, ?_, ?_, ?_, ?_, ?_, ?_⟩ <;> simp [initialState, MAX_LIVES, imitatorPlayer]

theorem not_recording_of_phase (s : GameState) (h : Inv s)
    (h1 : s.phase ≠ .recordingOriginal) (h2 : s.phase ≠ .recordingImitation) :
    s.isRecording = false := by
  cases hr : s.isRecording
  · rfl
  · rcases h.rec_phase hr with ⟨hh, _⟩ | ⟨hh, _⟩
    · exact absurd hh h1
    · exact absurd hh h2

theorem not_playing_of_phase (s : GameState) (h : Inv s)
    (h1 : s.phase ≠ .playingReversed) (h2 : s.phase ≠ .voting) (h3 : s.phase ≠ .reveal) :
    s.isPlaying = false := by
  cases hq : s.isPlaying
  · rfl
  · rcases h.play_phase hq with hh | hh | hh
    · exact absurd hh h1
    · exact absurd hh h2
    · exact absurd hh h3

theorem inv_setName1 (s : GameState) (h : Inv s) (hp : s.phase = .setup) (v : String) :
    Inv { s with player1 := { s.player1 with name := v } } := by
  obtain ⟨l1, l2, l3, l4, al, rd, rp, pp, rl⟩ := h
  exact ⟨l1, l2, l3, l4, al, by simp [hp], rp, pp, rl⟩

theorem inv_setName2 (s : GameState) (h : Inv s) (hp : s.phase = .setup) (v : String) :
    Inv { s with player2 := { s.player2 with name := v } } := by
  obtain ⟨l1, l2, l3, l4, al, rd, rp, pp, rl⟩ := h
  exact ⟨l1, l2, l3, l4, al, by simp [hp], rp, pp, rl⟩

theorem inv_handleSetupSubmit (s : GameState) (h : Inv s) (hp : s.phase = .setup) :
    Inv (handleSetupSubmit s) := by
  have hal := h.alive (by simp [hp])
  have hrec := not_recording_of_phase s h (by simp [hp]) (by simp [hp])
  have hpl := not_playing_of_phase s h (by simp [hp]) (by simp [hp]) (by simp [hp])
  obtain ⟨l1, l2, l3, l4, al, rd, rp, pp, rl⟩ := h
  unfold handleSetupSubmit
  split_ifs with hg
  · exact ⟨l1, l2, l3, l4, fun _ => hal, by simp, by simp [hrec], by simp [hpl], rl⟩
  · exact ⟨l1, l2, l3, l4, al, rd, rp, pp, rl⟩

theorem inv_handleStartGame (s : GameState) (h : Inv s) (hp : s.phase = .start)
    (r : MicResult) : Inv (handleStartGame r s) := by
  have hal := h.alive (by simp [hp])
  have hrec := not_recording_of_phase s h (by simp [hp]) (by simp [hp])
  have hpl := not_playing_of_phase s h (by simp [hp]) (by simp [hp]) (by simp [hp])
  obtain ⟨l1, l2, l3, l4, al, rd, rp, pp, rl⟩ := h
  obtain ⟨hal1, hal2⟩ := hal
  cases r with
  | ok =>
    refine ⟨?_, ?_, ?_, ?_, ?_, ?_, ?_, ?_, ?_⟩ <;>
      simp_all [handleStartGame, startRecordingOk]
  | failure newPerm msg =>
    unfold handleStartGame micFailure
    dsimp only
    split_ifs with hg <;>
      refine ⟨?_, ?_, ?_, ?_, ?_, ?_, ?_, ?_, ?_⟩ <;>
      simp_all

theorem inv_stopRecordingDecoded (s : GameState) (h : Inv s)
    (hp : s.phase = .recordingOriginal ∨ s.phase = .recordingImitation)
    (result : Option (AudioBuffer Float)) : Inv (stopRecordingDecoded result s) := by
  have hal := h.alive (by rcases hp with hp | hp <;> simp [hp])
  have hpl := not_playing_of_phase s h (by rcases hp with hp | hp <;> simp [hp])
    (by rcases hp with hp | hp <;> simp [hp]) (by rcases hp with hp | hp <;> simp [hp])
  obtain ⟨l1, l2, l3, l4, al, rd, rp, pp, rl⟩ := h
  obtain ⟨hal1, hal2⟩ := hal
  unfold stopRecordingDecoded
  cases har : s.activeRecorder with
  | none => exact ⟨l1, l2, l3, l4, al, rd, rp, pp, rl⟩
  | some f =>
    rcases hp with hp | hp <;> cases f <;> cases result <;> dsimp only <;>
      split_ifs with hr <;>
      refine ⟨?_, ?_, ?_, ?_, ?_, ?_, ?_, ?_, ?_⟩ <;>
      simp_all

theorem inv_playReversedAudio (s : GameState) (h : Inv s)
    (hp : s.phase = .originalRecorded ∨ s.phase = .playingReversed) :
    Inv (playReversedAudio s) := by
  have hal := h.alive (by rcases hp with hp | hp <;> simp [hp])
  have hrec := not_recording_of_phase s h (by rcases hp with hp | hp <;> simp [hp])
    (by rcases hp with hp | hp <;> simp [hp])
  obtain ⟨l1, l2, l3, l4, al, rd, rp, pp, rl⟩ := h
  obtain ⟨hal1, hal2⟩ := hal
  unfold playReversedAudio
  rcases hp with hp | hp <;> split_ifs with hg <;>
    refine ⟨?_, ?_, ?_, ?_, ?_, ?_, ?_, ?_, ?_⟩ <;>
    simp_all [MAX_REVERSE_PLAYS] <;> try omega

theorem inv_handleStartImitation (s : GameState) (h : Inv s)
    (hp : s.phase = .playingReversed) (hq : s.isPlaying = false) (r : MicResult) :
    Inv (handleStartImitation r s) := by
  have hal := h.alive (by simp [hp])
  have hrec := not_recording_of_phase s h (by simp [hp]) (by simp [hp])
  obtain ⟨l1, l2, l3, l4, al, rd, rp, pp, rl⟩ := h
  obtain ⟨hal1, hal2⟩ := hal
  cases r with
  | ok =>
    refine ⟨?_, ?_, ?_, ?_, ?_, ?_, ?_, ?_, ?_⟩ <;>
      simp_all [handleStartImitation, startRecordingOk]
  | failure newPerm msg =>
    unfold handleStartImitation micFailure
    dsimp only
    refine ⟨?_, ?_, ?_, ?_, ?_, ?_, ?_, ?_, ?_⟩ <;> simp_all

theorem inv_goToVoting (s : GameState) (h : Inv s) (hp : s.phase = .imitationRecorded) :
    Inv { s with phase := GamePhase.voting } := by
  have hal := h.alive (by simp [hp])
  have hrec := not_recording_of_phase s h (by simp [hp]) (by simp [hp])
  obtain ⟨l1, l2, l3, l4, al, rd, rp, pp, rl⟩ := h
  obtain ⟨hal1, hal2⟩ := hal
  refine ⟨?_, ?_, ?_, ?_, ?_, ?_, ?_, ?_, ?_⟩ <;> simp_all

theorem inv_playOriginal (s : GameState) (h : Inv s)
    (hp : s.phase = .voting ∨ s.phase = .reveal) : Inv (playOriginal s) := by
  have hrec := not_recording_of_phase s h (by rcases hp with hp | hp <;> simp [hp])
    (by rcases hp with hp | hp <;> simp [hp])
  obtain ⟨l1, l2, l3, l4, al, rd, rp, pp, rl⟩ := h
  unfold playOriginal
  rcases hp with hp | hp <;> split_ifs with hg <;>
    refine ⟨?_, ?_, ?_, ?_, ?_, ?_, ?_, ?_, ?_⟩ <;>
    simp_all [imitatorPlayer]

theorem inv_playImitationReversed (s : GameState) (h : Inv s)
    (hp : s.phase = .voting ∨ s.phase = .reveal) : Inv (playImitationReversed s) := by
  have hrec := not_recording_of_phase s h (by rcases hp with hp | hp <;> simp [hp])
    (by rcases hp with hp | hp <;> simp [hp])
  obtain ⟨l1, l2, l3, l4, al, rd, rp, pp, rl⟩ := h
  unfold playImitationReversed
  rcases hp with hp | hp <;> split_ifs with hg <;>
    refine ⟨?_, ?_, ?_, ?_, ?_, ?_, ?_, ?_, ?_⟩ <;>
    simp_all [imitatorPlayer]

theorem inv_handleVote (w : Bool) (s : GameState) (h : Inv s)
    (hp : s.phase = .voting) (hq : s.isPlaying = false) : Inv (handleVote w s) := by
  have hal := h.alive (by simp [hp])
  have hrec := not_recording_of_phase s h (by simp [hp]) (by simp [hp])
  obtain ⟨l1, l2, l3, l4, al, rd, rp, pp, rl⟩ := h
  obtain ⟨hal1, hal2⟩ := hal
  unfold handleVote setImitatorPlayer imitatorPlayer
  cases w <;> dsimp only <;> split_ifs <;>
    refine ⟨?_, ?_, ?_, ?_, ?_, ?_, ?_, ?_, ?_⟩ <;>
    simp_all [imitatorPlayer] <;> try omega

theorem inv_nextRound (s : GameState) (h : Inv s) (hp : s.phase = .reveal) :
    Inv (nextRound s) := by
  have hal := h.alive (by simp [hp])
  obtain ⟨l1, l2, l3, l4, al, rd, rp, pp, rl⟩ := h
  obtain ⟨hal1, hal2⟩ := hal
  unfold nextRound
  refine ⟨?_, ?_, ?_, ?_, ?_, ?_, ?_, ?_, ?_⟩ <;> simp_all

theorem inv_resetGame (s : GameState) : Inv (resetGame s) := by
  unfold resetGame
  refine ⟨?_, ?_, ?_, ?_, ?_, ?_, ?_, ?_, ?_⟩ <;> simp_all [MAX_LIVES]

theorem inv_goBackPrelude (s : GameState) (h : Inv s) : Inv (goBackPrelude s) := by
  obtain ⟨l1, l2, l3, l4, al, rd, rp, pp, rl⟩ := h
  unfold goBackPrelude
  split_ifs with hc <;>
    refine ⟨?_, ?_, ?_, ?_, ?_, ?_, ?_, ?_, ?_⟩ <;>
    simp_all [imitatorPlayer]

theorem goBackPrelude_not_recording (s : GameState) (h : Inv s) :
    (goBackPrelude s).isRecording = false := by
  unfold goBackPrelude
  dsimp only
  split_ifs with hc
  · rfl
  · cases hr : s.isRecording
    · rfl
    · exfalso
      rcases h.rec_phase hr with ⟨_, ha⟩ | ⟨_, ha⟩ <;> simp [hr, ha] at hc

theorem inv_goBackNav (s : GameState) (h : Inv s) (hrec0 : s.isRecording = false)
    (hpl0 : s.isPlaying = false) : Inv (goBackNav s) := by
  obtain ⟨l1, l2, l3, l4, al, rd, rp, pp, rl⟩ := h
  unfold goBackNav setImitatorPlayer imitatorPlayer
  split
  case _ heq =>
    have hal := al (by simp [heq])
    obtain ⟨hal1, hal2⟩ := hal
    refine ⟨?_, ?_, ?_, ?_, ?_, ?_, ?_, ?_, ?_⟩ <;> simp_all
  case _ heq =>
    have hal := al (by simp [heq])
    obtain ⟨hal1, hal2⟩ := hal
    refine ⟨?_, ?_, ?_, ?_, ?_, ?_, ?_, ?_, ?_⟩ <;> simp_all
  case _ heq =>
    have hal := al (by simp [heq])
    obtain ⟨hal1, hal2⟩ := hal
    refine ⟨?_, ?_, ?_, ?_, ?_, ?_, ?_, ?_, ?_⟩ <;> simp_all
  case _ heq =>
    have hal := al (by simp [heq])
    obtain ⟨hal1, hal2⟩ := hal
    refine ⟨?_, ?_, ?_, ?_, ?_, ?_, ?_, ?_, ?_⟩ <;> simp_all
  case _ heq =>
    have hal := al (by simp [heq])
    obtain ⟨hal1, hal2⟩ := hal
    refine ⟨?_, ?_, ?_, ?_, ?_, ?_, ?_, ?_, ?_⟩ <;> simp_all
  case _ heq =>
    have hal := al (by simp [heq])
    obtain ⟨hal1, hal2⟩ := hal
    refine ⟨?_, ?_, ?_, ?_, ?_, ?_, ?_, ?_, ?_⟩ <;> simp_all
  case _ heq =>
    have hal := al (by simp [heq])
    obtain ⟨hal1, hal2⟩ := hal
    refine ⟨?_, ?_, ?_, ?_, ?_, ?_, ?_, ?_, ?_⟩ <;> simp_all
  case _ heq =>
    have hal := al (by simp [heq])
    obtain ⟨hal1, hal2⟩ := hal
    refine ⟨?_, ?_, ?_, ?_, ?_, ?_, ?_, ?_, ?_⟩ <;> simp_all
  case _ heq =>
    have hal := al (by simp [heq])
    obtain ⟨hal1, hal2⟩ := hal
    split_ifs <;>
      refine ⟨?_, ?_, ?_, ?_, ?_, ?_, ?_, ?_, ?_⟩ <;>
      simp_all [imitatorPlayer] <;> try omega
  case _ =>
    exact ⟨l1, l2, l3, l4, al, rd, rp, pp, rl⟩

theorem inv_goBack (s : GameState) (h : Inv s) : Inv (goBack s) := by
  unfold goBack
  exact inv_goBackNav (goBackPrelude s) (inv_goBackPrelude s h)
    (goBackPrelude_not_recording s h) rfl

theorem inv_setNotPlaying (s : GameState) (h : Inv s) :
    Inv { s with isPlaying := false } := by
  obtain ⟨l1, l2, l3, l4, al, rd, rp, pp, rl⟩ := h
  refine ⟨?_, ?_, ?_, ?_, ?_, ?_, ?_, ?_, ?_⟩ <;> simp_all [imitatorPlayer]

theorem inv_permissionChanged (s : GameState) (h : Inv s) (p : MicPermissionState) :
    Inv { s with
      micPermission := p
      permissionError := if p = .granted then none else s.permissionError } := by
  obtain ⟨l1, l2, l3, l4, al, rd, rp, pp, rl⟩ := h
  refine ⟨?_, ?_, ?_, ?_, ?_, ?_, ?_, ?_, ?_⟩ <;> simp_all [imitatorPlayer]

set_option maxHeartbeats 1000000 in
theorem inv_step (op : Op) (s : GameState) (h : Inv s) : Inv (step op s) := by
  cases op with
  | setName1 v =>
    simp only [step]
    split_ifs with hg
    · exact inv_setName1 s h hg v
    · exact h
  | setName2 v =>
    simp only [step]
    split_ifs with hg
    · exact inv_setName2 s h hg v
    · exact h
  | setupSubmit =>
    simp only [step]
    split_ifs with hg
    · exact inv_handleSetupSubmit s h hg
    · exact h
  | startGamePressed r =>
    simp only [step]
    split_ifs with hg
    · simp only [Bool.and_eq_true, decide_eq_true_eq] at hg
      exact inv_handleStartGame s h hg.1 r
    · exact h
  | stopRecordingPressed result =>
    simp only [step]
    split_ifs with hg
    · simp only [Bool.or_eq_true, decide_eq_true_eq] at hg
      exact inv_stopRecordingDecoded s h hg result
    · exact h
  | playReversedPressed =>
    simp only [step]
    split_ifs with hg
    · simp only [Bool.or_eq_true, Bool.and_eq_true, decide_eq_true_eq] at hg
      refine inv_playReversedAudio s h ?_
      rcases hg with ⟨hg, _⟩ | ⟨⟨hg, _⟩, _⟩
      · exact Or.inl hg
      · exact Or.inr hg
    · exact h
  | startImitationPressed r =>
    simp only [step]
    split_ifs with hg
    · simp only [Bool.and_eq_true, decide_eq_true_eq, Bool.not_eq_true'] at hg
      exact inv_handleStartImitation s h hg.1 hg.2 r
    · exact h
  | goToVotingPressed =>
    simp only [step]
    split_ifs with hg
    · exact inv_goToVoting s h hg
    · exact h
  | playOriginalPressed =>
    simp only [step]
    split_ifs with hg
    · simp only [Bool.and_eq_true, Bool.or_eq_true, decide_eq_true_eq] at hg
      exact inv_playOriginal s h hg.1
    · exact h
  | playImitationReversedPressed =>
    simp only [step]
    split_ifs with hg
    · simp only [Bool.and_eq_true, Bool.or_eq_true, decide_eq_true_eq] at hg
      exact inv_playImitationReversed s h hg.1
    · exact h
  | votePressed w =>
    simp only [step]
    split_ifs with hg
    · simp only [Bool.and_eq_true, decide_eq_true_eq, Bool.not_eq_true'] at hg
      exact inv_handleVote w s h hg.1 hg.2
    · exact h
  | nextRoundPressed =>
    simp only [step]
    split_ifs with hg
    · exact inv_nextRound s h hg
    · exact h
  | backPressed =>
    simp only [step]
    split_ifs with hg
    · exact inv_goBack s h
    · exact h
  | resetPressed =>
    simp only [step]
    split_ifs with hg
    · exact inv_resetGame s
    · exact h
  | playbackEnded =>
    simp only [step]
    split_ifs with hg
    · exact inv_setNotPlaying s h
    · exact h
  | permissionChanged p =>
    simp only [step]
    exact inv_permissionChanged s h p

theorem foldl_inv (ops : List Op) (s : GameState) (h : Inv s) :
    Inv (ops.foldl (fun t op => step op t) s) := by
  induction ops generalizing s with
  | nil => exact h
  | cons op rest ih => exact ih _ (inv_step op s h)

/-- Every reachable state satisfies the inductive invariant. -/
theorem reachable_inv (s : GameState) (h : Reachable s) : Inv s := by
  obtain ⟨ops, rfl⟩ := h
  exact foldl_inv ops initialState inv_initialState

/-! ## Concrete executions

Command sequences used to witness the claims on explicitly reachable states.
`buf0` stands for a decoded recording (its contents are irrelevant to the
state machine). -/

def buf0 : AudioBuffer Float := ⟨0, 0, 0, []⟩

/-- Enter both names, submit, record the original phrase. -/
def tr_recording : List Op :=
  [.setName1 "A", .setName2 "B", .setupSubmit, .startGamePressed .ok]

/-- ... stop recording (decode succeeds) and play the reversed audio. -/
def tr_playing : List Op :=
  tr_recording ++ [.stopRecordingPressed (some buf0), .playReversedPressed]

/-- ... replay a second time; both playbacks run to completion. -/
def tr_twoPlays : List Op :=
  tr_playing ++ [.playbackEnded, .playReversedPressed, .playbackEnded]

/-- ... record the imitation and proceed to the vote. -/
def tr_voting : List Op :=
  tr_playing ++ [.playbackEnded, .startImitationPressed .ok,
    .stopRecordingPressed (some buf0), .goToVotingPressed]

/-- ... vote "close enough", reaching `reveal` with a positive vote result. -/
def tr_revealTrue : List Op := tr_voting ++ [.votePressed true]

/-- ... vote "not close", deducting a life from player 2. -/
def tr_afterVoteFalse : List Op := tr_voting ++ [.votePressed false]

/-! ## The claims -/

/-- Claim C3: in the voting phase, a vote of "close enough" leaves both
players' life counters unchanged (and moves to `reveal`), and a vote of
"not close" decrements exactly the current imitator's lives (the player who is
not the current recorder) by exactly 1, never below 0; if that deduction
brings the imitator's lives to 0 the next phase is `game-over`, otherwise it
is `reveal`. -/
theorem claim_C3_vote_effect (s : GameState) (hreach : Reachable s)
    (hp : s.phase = .voting) (hq : s.isPlaying = false) :
    ((step (.votePressed true) s).player1.lives = s.player1.lives ∧
      (step (.votePressed true) s).player2.lives = s.player2.lives ∧
      (step (.votePressed true) s).phase = .reveal) ∧
    ((imitatorPlayer (step (.votePressed false) s)).lives = (imitatorPlayer s).lives - 1 ∧
      0 ≤ (imitatorPlayer (step (.votePressed false) s)).lives ∧
      (recorderPlayer (step (.votePressed false) s)).lives = (recorderPlayer s).lives ∧
      (step (.votePressed false) s).phase =
        (if (imitatorPlayer s).lives - 1 = 0 then GamePhase.gameOver else GamePhase.reveal)) := by
  have hinv := reachable_inv s hreach
  obtain ⟨hal1, hal2⟩ := hinv.alive (by simp [hp])
  by_cases hcr : s.currentRecorder = 1 <;>
    refine ⟨⟨?_, ?_, ?_⟩, ?_, ?_, ?_, ?_⟩ <;>
    simp only [step, handleVote, setImitatorPlayer, imitatorPlayer, recorderPlayer,
      hp, hq, hcr] <;>
    split_ifs <;>
    simp_all <;>
    omega

/-- Concrete instance of claim C3: after the scripted first round, a
"not close" vote takes player 2 (the imitator) from 3 to 2 lives and moves to
`reveal`. -/
theorem claim_C3_witness :
    Reachable (run tr_voting) ∧ (run tr_voting).phase = .voting ∧
    (run tr_voting).isPlaying = false ∧
    (imitatorPlayer (step (.votePressed false) (run tr_voting))).lives
      = (imitatorPlayer (run tr_voting)).lives - 1 ∧
    (step (.votePressed false) (run tr_voting)).phase
      = (if (imitatorPlayer (run tr_voting)).lives - 1 = 0 then GamePhase.gameOver
          else GamePhase.reveal) :=
  ⟨⟨tr_voting, rfl⟩, by decide, by decide,
    (claim_C3_vote_effect _ ⟨tr_voting, rfl⟩ (by decide) (by decide)).2.1,
    (claim_C3_vote_effect _ ⟨tr_voting, rfl⟩ (by decide) (by decide)).2.2.2.2⟩

/-- Claim C4: in every reachable state, at most one of
{recording, playing} is true.  (Recording can only be started from phases in
which no playback is active and vice versa, so the two flags are never set
simultaneously.) -/
theorem claim_C4_mutual_exclusion (s : GameState) (hreach : Reachable s) :
    ¬(s.isRecording = true ∧ s.isPlaying = true) := by
  rintro ⟨hr, hq⟩
  have hinv := reachable_inv s hreach
  rcases hinv.rec_phase hr with ⟨hph, _⟩ | ⟨hph, _⟩ <;>
    rcases hinv.play_phase hq with h1 | h1 | h1 <;> simp [hph] at h1

/-- Concrete instance of claim C4 on a state in which playback is active. -/
theorem claim_C4_witness :
    Reachable (run tr_playing) ∧ (run tr_playing).isPlaying = true ∧
    ¬((run tr_playing).isRecording = true ∧ (run tr_playing).isPlaying = true) :=
  ⟨⟨tr_playing, rfl⟩, by decide, claim_C4_mutual_exclusion _ ⟨tr_playing, rfl⟩⟩

/-- Claim C5: in every reachable state each player's life counter satisfies
`0 ≤ lives ≤ 3`. -/
theorem claim_C5_lives_bounds (s : GameState) (hreach : Reachable s) :
    (0 ≤ s.player1.lives ∧ s.player1.lives ≤ MAX_LIVES) ∧
    (0 ≤ s.player2.lives ∧ s.player2.lives ≤ MAX_LIVES) :=
  have hinv := reachable_inv s hreach
  ⟨⟨hinv.p1_lo, hinv.p1_hi⟩, ⟨hinv.p2_lo, hinv.p2_hi⟩⟩

/-- Concrete instance of claim C5 on the state reached after a "not close"
vote (player 2 is at 2 lives there). -/
theorem claim_C5_witness :
    Reachable (run tr_afterVoteFalse) ∧ (run tr_afterVoteFalse).player2.lives = 2 ∧
    ((0 ≤ (run tr_afterVoteFalse).player1.lives ∧
        (run tr_afterVoteFalse).player1.lives ≤ MAX_LIVES) ∧
      (0 ≤ (run tr_afterVoteFalse).player2.lives ∧
        (run tr_afterVoteFalse).player2.lives ≤ MAX_LIVES)) :=
  ⟨⟨tr_afterVoteFalse, rfl⟩, by decide,
    claim_C5_lives_bounds _ ⟨tr_afterVoteFalse, rfl⟩⟩

/-- Effect of a "not close" vote on the projections of the state, used by the
claims about the vote/back round trip. -/
theorem vote_false_effect (s : GameState) (hp : s.phase = .voting)
    (hq : s.isPlaying = false) :
    (imitatorPlayer (step (.votePressed false) s)).lives = (imitatorPlayer s).lives - 1 ∧
    (recorderPlayer (step (.votePressed false) s)).lives = (recorderPlayer s).lives ∧
    (step (.votePressed false) s).isPlaying = false ∧
    (step (.votePressed false) s).voteResult = some false ∧
    (2 ≤ (imitatorPlayer s).lives → (step (.votePressed false) s).phase = .reveal) := by
  by_cases hcr : s.currentRecorder = 1 <;>
    refine ⟨?_, ?_, ?_, ?_, ?_⟩ <;>
    simp only [step, handleVote, setImitatorPlayer, imitatorPlayer, recorderPlayer,
      hp, hq, hcr] <;>
    split_ifs <;>
    simp_all <;>
    omega

/-- Effect of the back transition out of `reveal` on the projections of the
state, used by the claims about backing out of a vote. -/
theorem back_reveal_effect (s : GameState) (hp : s.phase = .reveal)
    (hq : s.isPlaying = false) :
    (step .backPressed s).phase = .voting ∧
    (s.voteResult ≠ some false →
      (step .backPressed s).player1.lives = s.player1.lives ∧
      (step .backPressed s).player2.lives = s.player2.lives) ∧
    (s.voteResult = some false →
      (imitatorPlayer (step .backPressed s)).lives = (imitatorPlayer s).lives + 1 ∧
      (recorderPlayer (step .backPressed s)).lives = (recorderPlayer s).lives) := by
  by_cases hcr : s.currentRecorder = 1 <;>
    refine ⟨?_, ?_, ?_⟩ <;>
    simp only [step, backEnabled, goBack, goBackNav, goBackPrelude, setImitatorPlayer,
      imitatorPlayer, recorderPlayer, hp, hq, hcr] <;>
    split_ifs <;>
    simp_all

/-- Claim C7: a "not close" vote that does not end the game, followed
immediately by the back transition out of `reveal`, restores the deducted
life: the imitator's counter returns to its pre-vote value and the phase
returns to `voting` (the recorder's counter is unchanged throughout). -/
theorem claim_C7_vote_back_restores (s : GameState)
    (hp : s.phase = .voting) (hq : s.isPlaying = false)
    (hl : 2 ≤ (imitatorPlayer s).lives) :
    (step .backPressed (step (.votePressed false) s)).phase = .voting ∧
    (imitatorPlayer (step .backPressed (step (.votePressed false) s))).lives
      = (imitatorPlayer s).lives ∧
    (recorderPlayer (step .backPressed (step (.votePressed false) s))).lives
      = (recorderPlayer s).lives := by
  obtain ⟨hv1, hv2, hv3, hv4, hv5⟩ := vote_false_effect s hp hq
  obtain ⟨b1, _, b3⟩ := back_reveal_effect (step (.votePressed false) s) (hv5 hl) hv3
  obtain ⟨b3a, b3b⟩ := b3 hv4
  refine ⟨b1, ?_, ?_⟩
  · rw [b3a, hv1]; omega
  · rw [b3b, hv2]

/-- Concrete instance of claim C7: voting "not close" from the scripted
voting state and immediately backing out of `reveal` leaves player 2 at the
pre-vote 3 lives, back in `voting`. -/
theorem claim_C7_witness :
    Reachable (run tr_voting) ∧ (run tr_voting).phase = .voting ∧
    (run tr_voting).isPlaying = false ∧ 2 ≤ (imitatorPlayer (run tr_voting)).lives ∧
    (step .backPressed (step (.votePressed false) (run tr_voting))).phase = .voting ∧
    (imitatorPlayer (step .backPressed (step (.votePressed false) (run tr_voting)))).lives
      = (imitatorPlayer (run tr_voting)).lives :=
  ⟨⟨tr_voting, rfl⟩, by decide, by decide, by decide,
    (claim_C7_vote_back_restores _ (by decide) (by decide) (by decide)).1,
    (claim_C7_vote_back_restores _ (by decide) (by decide) (by decide)).2.1⟩

/-- Claim C9: when decoding a finished recording fails, the error is surfaced
as the human-readable message "Failed to process the recording. Please try
again." (not silently swallowed, not fatal), and the phase falls back to the
phase preceding capture: `start` for an original-recording decode failure,
`playing-reversed` for an imitation-recording decode failure. -/
theorem claim_C9_decode_failure (s : GameState) (hreach : Reachable s)
    (hr : s.isRecording = true) :
    (step (.stopRecordingPressed none) s).permissionError
      = some "Failed to process the recording. Please try again." ∧
    (s.phase = .recordingOriginal →
      (step (.stopRecordingPressed none) s).phase = .start) ∧
    (s.phase = .recordingImitation →
      (step (.stopRecordingPressed none) s).phase = .playingReversed) := by
  have hinv := reachable_inv s hreach
  rcases hinv.rec_phase hr with ⟨hph, ha⟩ | ⟨hph, ha⟩ <;>
    refine ⟨?_, ?_, ?_⟩ <;>
    simp [step, stopRecordingDecoded, hph, ha, hr]

/-- Concrete instance of claim C9: a decode failure while recording the
original phrase surfaces the message and falls back to `start`. -/
theorem claim_C9_witness :
    Reachable (run tr_recording) ∧ (run tr_recording).isRecording = true ∧
    (run tr_recording).phase = .recordingOriginal ∧
    (step (.stopRecordingPressed none) (run tr_recording)).permissionError
      = some "Failed to process the recording. Please try again." ∧
    (step (.stopRecordingPressed none) (run tr_recording)).phase = .start :=
  ⟨⟨tr_recording, rfl⟩, by decide, by decide,
    (claim_C9_decode_failure _ ⟨tr_recording, rfl⟩ (by decide)).1,
    (claim_C9_decode_failure _ ⟨tr_recording, rfl⟩ (by decide)).2.1 (by decide)⟩

/-- Claim C10: taking the back transition out of `reveal` after a
"close enough" vote (recorded vote result `true` — in fact after anything but
a recorded "not close" vote) leaves both players' life counters unchanged;
the life restoration on back-from-reveal happens exactly when the recorded
vote result is "not close" (`false`). -/
theorem claim_C10_back_from_reveal_frame (s : GameState)
    (hp : s.phase = .reveal) (hq : s.isPlaying = false) :
    (step .backPressed s).phase = .voting ∧
    (s.voteResult ≠ some false →
      (step .backPressed s).player1.lives = s.player1.lives ∧
      (step .backPressed s).player2.lives = s.player2.lives) ∧
    (s.voteResult = some false →
      (imitatorPlayer (step .backPressed s)).lives = (imitatorPlayer s).lives + 1) := by
  obtain ⟨a, b, c⟩ := back_reveal_effect s hp hq
  exact ⟨a, b, fun hv => (c hv).1⟩

/-- Concrete instance of claim C10: backing out of `reveal` after the
scripted "close enough" vote leaves both players at 3 lives and returns to
`voting`. -/
theorem claim_C10_witness :
    (run tr_revealTrue).phase = .reveal ∧ (run tr_revealTrue).isPlaying = false ∧
    (run tr_revealTrue).voteResult = some true ∧
    (step .backPressed (run tr_revealTrue)).phase = .voting ∧
    ((step .backPressed (run tr_revealTrue)).player1.lives
        = (run tr_revealTrue).player1.lives ∧
      (step .backPressed (run tr_revealTrue)).player2.lives
        = (run tr_revealTrue).player2.lives) :=
  ⟨by decide, by decide, by decide,
    (claim_C10_back_from_reveal_frame _ (by decide) (by decide)).1,
    (claim_C10_back_from_reveal_frame _ (by decide) (by decide)).2.1 (by decide)⟩

/-- A mid-game path back into `setup`: a full round with a "not close" vote
(player 2 drops to 2 lives), `nextRound` (round counter 2), back from `start`
into `setup`, then submitting the still-filled-in names again. -/
def tr_backToSetup : List Op :=
  tr_voting ++ [.votePressed false, .nextRoundPressed, .backPressed, .setupSubmit]

/-- Counterexample to claim C8 as stated: the final command of
`tr_backToSetup` is the setup-form submission with both names entered, so the
setup → start transition is taken, yet afterwards player 2 still has 2 lives
and the round counter still reads 2 — the transition does not initialize both
players to 3 lives and the round counter to 1 when `setup` was re-entered via
the back transition from `start` mid-game. -/
theorem claim_C8_counterexample :
    (run tr_backToSetup).phase = .start ∧
    nameEntered (run tr_backToSetup).player1.name = true ∧
    nameEntered (run tr_backToSetup).player2.name = true ∧
    (run tr_backToSetup).player2.lives = 2 ∧
    (run tr_backToSetup).roundCount = 2 := by decide

/-- Claim C8 (amended): the setup → start transition (`handleSetupSubmit`)
has no initializing side effect at all: it preserves both players' life
counters and the round counter, and only moves the phase to `start` when both
names are entered.  Both players having 3 lives and the round counter reading
1 on the first submission come from the initial values of the state (and from
`resetGame`), not from this transition. -/
theorem claim_C8_setup_submit_amended (s : GameState) (hp : s.phase = .setup) :
    (step .setupSubmit s).player1.lives = s.player1.lives ∧
    (step .setupSubmit s).player2.lives = s.player2.lives ∧
    (step .setupSubmit s).roundCount = s.roundCount ∧
    (nameEntered s.player1.name = true → nameEntered s.player2.name = true →
      (step .setupSubmit s).phase = .start) ∧
    initialState.player1.lives = MAX_LIVES ∧ initialState.player2.lives = MAX_LIVES ∧
    initialState.roundCount = 1 := by
  refine ⟨?_, ?_, ?_, ?_, by decide, by decide, by decide⟩ <;>
    simp only [step, handleSetupSubmit, hp] <;>
    split_ifs <;>
    simp_all

/-- Concrete instance of the amended claim C8: submitting the filled-in setup
form from the initial state moves to `start` and leaves the initial 3 lives
and round 1 in place. -/
theorem claim_C8_witness :
    (run [Op.setName1 "A", Op.setName2 "B"]).phase = .setup ∧
    (step .setupSubmit (run [Op.setName1 "A", Op.setName2 "B"])).player1.lives
      = (run [Op.setName1 "A", Op.setName2 "B"]).player1.lives ∧
    (step .setupSubmit (run [Op.setName1 "A", Op.setName2 "B"])).phase = .start :=
  ⟨by decide,
    (claim_C8_setup_submit_amended _ (by decide)).1,
    (claim_C8_setup_submit_amended _ (by decide)).2.2.2.1 (by decide) (by decide)⟩

/-! ## Claim C6: the replay counter

Helper lemmas recording which handlers touch `reversedPlayCount`. -/

theorem count_handleSetupSubmit (s : GameState) :
    (handleSetupSubmit s).reversedPlayCount = s.reversedPlayCount := by
  unfold handleSetupSubmit; split_ifs <;> rfl

theorem count_handleStartGame (r : MicResult) (s : GameState) :
    (handleStartGame r s).reversedPlayCount = s.reversedPlayCount := by
  cases r with
  | ok => rfl
  | failure newPerm msg => unfold handleStartGame micFailure; split_ifs <;> rfl

theorem count_handleStartImitation (r : MicResult) (s : GameState) :
    (handleStartImitation r s).reversedPlayCount = s.reversedPlayCount := by
  cases r with
  | ok => rfl
  | failure newPerm msg => rfl

theorem count_stopRecordingDecoded (result : Option (AudioBuffer Float)) (s : GameState) :
    (stopRecordingDecoded result s).reversedPlayCount = s.reversedPlayCount := by
  unfold stopRecordingDecoded
  split
  · rfl
  · cases result <;> split_ifs <;> rfl

theorem count_handleVote (w : Bool) (s : GameState) :
    (handleVote w s).reversedPlayCount = s.reversedPlayCount := by
  unfold handleVote setImitatorPlayer imitatorPlayer
  split_ifs <;> rfl

theorem count_playOriginal (s : GameState) :
    (playOriginal s).reversedPlayCount = s.reversedPlayCount := by
  unfold playOriginal; split_ifs <;> rfl

theorem count_playImitationReversed (s : GameState) :
    (playImitationReversed s).reversedPlayCount = s.reversedPlayCount := by
  unfold playImitationReversed; split_ifs <;> rfl

theorem count_goBackNav (s : GameState) :
    (goBackNav s).reversedPlayCount
      = if s.phase = .playingReversed then 0 else s.reversedPlayCount := by
  unfold goBackNav setImitatorPlayer imitatorPlayer
  split <;> split_ifs <;> simp_all

/-- One round of play, driven to the vote `b`: record, stop (decode ok),
play the reversed audio once, let it finish, record and stop the imitation,
go to the vote and cast it. -/
def roundOps (b : Bool) : List Op :=
  [.startGamePressed .ok, .stopRecordingPressed (some buf0), .playReversedPressed,
    .playbackEnded, .startImitationPressed .ok, .stopRecordingPressed (some buf0),
    .goToVotingPressed, .votePressed b]

/-- Five rounds in which player 2 loses a life in rounds 1, 3 and 5 (the
rounds in which player 2 imitates); the third "not close" vote ends the game
with the replay counter of the final round still at 1. -/
def tr_gameOver : List Op :=
  [.setName1 "A", .setName2 "B", .setupSubmit] ++ roundOps false ++ [.nextRoundPressed]
    ++ roundOps true ++ [.nextRoundPressed] ++ roundOps false ++ [.nextRoundPressed]
    ++ roundOps true ++ [.nextRoundPressed] ++ roundOps false

set_option maxHeartbeats 1000000 in
set_option maxRecDepth 10000 in
/-- Counterexample to claim C6 as stated: in the reachable `game-over` state
at the end of `tr_gameOver` the replay counter is 1, and the reset command
sets it to 0 — so the counter is also reset by `resetGame`, an operation that
neither leaves `playing-reversed` via the back transition nor starts a new
round; the "reset ... exactly when" part of the claim is therefore false. -/
theorem claim_C6_counterexample :
    (run tr_gameOver).phase = .gameOver ∧
    (run tr_gameOver).reversedPlayCount = 1 ∧
    (step .resetPressed (run tr_gameOver)).reversedPlayCount = 0 := by decide

/-- Claim C6 (amended): within any round the replay counter never exceeds 2
and a third replay request is rejected without starting playback; the counter
is set to 0 exactly by leaving `playing-reversed` via the back transition, by
starting a new round, or by resetting the game. -/
theorem claim_C6_replay_cap_amended (s : GameState) (hreach : Reachable s) :
    s.reversedPlayCount ≤ MAX_REVERSE_PLAYS ∧
    (s.phase = .playingReversed → MAX_REVERSE_PLAYS ≤ s.reversedPlayCount →
      step .playReversedPressed s = s) ∧
    (∀ op : Op, (step op s).reversedPlayCount = 0 → s.reversedPlayCount ≠ 0 →
      (op = .backPressed ∧ s.phase = .playingReversed) ∨ op = .nextRoundPressed ∨
        op = .resetPressed) ∧
    (s.phase = .playingReversed → s.isPlaying = false →
      (step .backPressed s).reversedPlayCount = 0) ∧
    (s.phase = .reveal → (step .nextRoundPressed s).reversedPlayCount = 0) ∧
    (s.phase = .gameOver → (step .resetPressed s).reversedPlayCount = 0) := by
  have hinv := reachable_inv s hreach
  refine ⟨hinv.replay_le, ?_, ?_, ?_, ?_, ?_⟩
  · intro hp hc
    simp only [step]
    split_ifs with hg
    · exfalso
      simp only [Bool.or_eq_true, Bool.and_eq_true, decide_eq_true_eq, hp] at hg
      rcases hg with ⟨hg, _⟩ | ⟨⟨_, _⟩, hg⟩
      · exact absurd hg (by simp)
      · simp only [MAX_REVERSE_PLAYS] at hg hc; omega
    · rfl
  · intro op h0 hne
    cases op with
    | setName1 v =>
      exfalso; apply hne; revert h0; simp only [step]; split_ifs <;> exact id
    | setName2 v =>
      exfalso; apply hne; revert h0; simp only [step]; split_ifs <;> exact id
    | setupSubmit =>
      exfalso; apply hne; revert h0
      simp only [step, count_handleSetupSubmit]; split_ifs <;>
        simp [count_handleSetupSubmit]
    | startGamePressed r =>
      exfalso; apply hne; revert h0
      simp only [step]; split_ifs <;> simp [count_handleStartGame]
    | stopRecordingPressed result =>
      exfalso; apply hne; revert h0
      simp only [step]; split_ifs <;> simp [count_stopRecordingDecoded]
    | playReversedPressed =>
      exfalso; revert h0
      simp only [step, playReversedAudio]; split_ifs <;> intro h0 <;>
        first
          | exact hne h0
          | simp_all
    | startImitationPressed r =>
      exfalso; apply hne; revert h0
      simp only [step]; split_ifs <;> simp [count_handleStartImitation]
    | goToVotingPressed =>
      exfalso; apply hne; revert h0; simp only [step]; split_ifs <;> exact id
    | playOriginalPressed =>
      exfalso; apply hne; revert h0
      simp only [step]; split_ifs <;> simp [count_playOriginal]
    | playImitationReversedPressed =>
      exfalso; apply hne; revert h0
      simp only [step]; split_ifs <;> simp [count_playImitationReversed]
    | votePressed w =>
      exfalso; apply hne; revert h0
      simp only [step]; split_ifs <;> simp [count_handleVote]
    | nextRoundPressed => exact Or.inr (Or.inl rfl)
    | backPressed =>
      by_cases hb : backEnabled s = true
      · by_cases hpr : s.phase = .playingReversed
        · exact Or.inl ⟨rfl, hpr⟩
        · exfalso; apply hne; revert h0
          simp only [step, hb, if_true, goBack, count_goBackNav, goBackPrelude]
          simp [hpr]
      · exfalso; apply hne; revert h0; simp only [step, hb]; simp
    | resetPressed => exact Or.inr (Or.inr rfl)
    | playbackEnded =>
      exfalso; apply hne; revert h0; simp only [step]; split_ifs <;> exact id
    | permissionChanged p =>
      exfalso; apply hne; revert h0; simp only [step]; exact id
  · intro hp hq
    simp only [step, backEnabled, hp, hq, goBack, goBackPrelude]
    simp [count_goBackNav]
  · intro hp
    simp only [step, hp]
    rfl
  · intro hp
    simp only [step, hp]
    rfl

/-- Concrete instance of the amended claim C6 at a reachable state with the
replay cap exhausted: the counter is within the cap and a third replay
request leaves the state unchanged. -/
theorem claim_C6_witness :
    Reachable (run tr_twoPlays) ∧ (run tr_twoPlays).phase = .playingReversed ∧
    (run tr_twoPlays).reversedPlayCount = 2 ∧
    (run tr_twoPlays).reversedPlayCount ≤ MAX_REVERSE_PLAYS ∧
    step .playReversedPressed (run tr_twoPlays) = run tr_twoPlays :=
  ⟨⟨tr_twoPlays, rfl⟩, by decide, by decide,
    (claim_C6_replay_cap_amended _ ⟨tr_twoPlays, rfl⟩).1,
    (claim_C6_replay_cap_amended _ ⟨tr_twoPlays, rfl⟩).2.1 (by decide) (by decide)⟩

end Rev3rse
